import Mathlib

/-!
Shallow embedding of `src/programs/brood/src/lib.rs` (Anchor/Solana program
`brood`): an on-chain ledger of self-replicating economic agents.

Modelling conventions:
* `u64` / `u32` / `i64` machine integers are represented as `Int` (for fields
  that are added to and subtracted from: `treasury`, `total_earnings`,
  `total_costs`, `performance_score`, timestamps) or `Nat` (for the pure
  counters `generation`, `spawn_count`, `service_count` and for instruction
  arguments of type `u64`/`u8`), with explicit bounds checks where the Rust
  code performs arithmetic: Anchor programs are built with
  `overflow-checks = true`, so an overflowing `+`/`-` panics and aborts the
  whole transaction, which we model as an `overflow` error result.
* A failed Solana instruction rolls the whole transaction back, so each
  handler is a pure function returning `Except BroodError _`; an error means
  no observable state change.
* `Pubkey`s are opaque identifiers, modelled as `Nat`.
* The Anchor account constraint `has_one = owner` with `owner : Signer` on
  `DeductCosts`, `Spawn` and `RecordOutcome` means the instruction is only
  reachable when the signing caller equals the stored `agent.owner`; it is
  modelled as a leading authorization check.
* The `#[max_len(32)]` bound on `Agent.name` (also enforced by the PDA seed
  length limit on `name.as_bytes()`) is modelled as an explicit length check
  producing a `validation` error. It belongs to Anchor account validation,
  which runs before the handler body and processes accounts in declaration
  order — so in `spawn` it sits after the parent's `has_one = owner` check
  but before every handler `require!`.
* The external system-program transfer CPI in `fund_treasury` and
  `pay_for_service` is modelled by a `transferOk : Bool` oracle argument; a
  failing transfer aborts the instruction with `transferFailed`.
* The clock sysvar value is passed in as an explicit `now : Int` argument; the
  clock-derived mutation seed (`clock.unix_timestamp as u64`) is an explicit
  `seed : Nat` argument.
-/

namespace Brood

/-- Modulus of the Rust `u64` type. -/
def U64_MOD : Nat := 2 ^ 64

/-- Modulus of the Rust `u32` type. -/
def U32_MOD : Nat := 2 ^ 32

/-- Smallest value of the Rust `i64` type. -/
def I64_MIN : Int := -(2 ^ 63)

/-- Largest value of the Rust `i64` type. -/
def I64_MAX : Int := 2 ^ 63 - 1

/-- `pub const MIN_OPERATING_RESERVE: u64 = 10_000_000; // 0.01 SOL` -/
def MIN_OPERATING_RESERVE : Nat := 10000000

/-- `pub const MIN_SPAWN_SEED: u64 = 100_000_000; // 0.1 SOL` -/
def MIN_SPAWN_SEED : Nat := 100000000

/-- The `AgentParams` struct: bounded numeric trading traits (each `u8`). -/
structure AgentParams where
  risk_tolerance : Nat
  trade_frequency : Nat
  profit_target : Nat
  stop_loss : Nat
  strategy_type : Nat
deriving DecidableEq, Repr

/-- The `Agent` account state struct. -/
structure Agent where
  id : Nat
  owner : Nat
  parent : Option Nat
  generation : Nat
  name : String
  params : AgentParams
  treasury : Int
  total_earnings : Int
  total_costs : Int
  spawn_count : Nat
  service_count : Nat
  performance_score : Int
  created_at : Int
  last_active : Int
  is_alive : Bool
deriving DecidableEq, Repr

/-- Error kinds: the three `BroodError` codes of the program, plus the
framework-level failure modes an instruction can abort with (Anchor
`has_one` violation, account/PDA validation failure, failed transfer CPI,
arithmetic overflow panic). -/
inductive BroodError where
  | agentDead
  | insufficientTreasury
  | insufficientSpawnSeed
  | unauthorized
  | validation
  | transferFailed
  | overflow
deriving DecidableEq, Repr

/-- Embeds the `create_agent` instruction handler: fresh identity, generation
1, no parent, zero treasury and counters, alive, both timestamps set to the
current clock. -/
def create_agent (agentKey ownerKey : Nat) (name : String)
    (initial_params : AgentParams) (now : Int) : Except BroodError Agent :=
  if name.length ≤ 32 then
    .ok { id := agentKey, owner := ownerKey, parent := none, generation := 1,
          name := name, params := initial_params, treasury := 0,
          total_earnings := 0, total_costs := 0, spawn_count := 0,
          service_count := 0, performance_score := 0, created_at := now,
          last_active := now, is_alive := true }
  else .error .validation

/-- Embeds the `fund_treasury` instruction handler: transfer CPI from the
funder to the treasury PDA, then `agent.treasury += amount`. There is no
liveness or ownership check. -/
def fund_treasury (agent : Agent) (amount : Nat) (transferOk : Bool) :
    Except BroodError Agent :=
  if transferOk then
    if agent.treasury + (amount : Int) < (U64_MOD : Int) then
      .ok { agent with treasury := agent.treasury + (amount : Int) }
    else .error .overflow
  else .error .transferFailed

/-- Embeds the `pay_for_service` instruction handler: requires `is_alive`,
transfers from the user to the treasury PDA, then increments `treasury`,
`total_earnings` and `service_count` and sets `last_active`. -/
def pay_for_service (agent : Agent) (amount : Nat) (transferOk : Bool)
    (now : Int) : Except BroodError Agent :=
  if agent.is_alive then
    if transferOk then
      if agent.treasury + (amount : Int) < (U64_MOD : Int) then
        if agent.total_earnings + (amount : Int) < (U64_MOD : Int) then
          if agent.service_count + 1 < U64_MOD then
            .ok { agent with
                  treasury := agent.treasury + (amount : Int),
                  total_earnings := agent.total_earnings + (amount : Int),
                  service_count := agent.service_count + 1,
                  last_active := now }
          else .error .overflow
        else .error .overflow
      else .error .overflow
    else .error .transferFailed
  else .error .agentDead

/-- Embeds the `deduct_costs` instruction handler. The `DeductCosts` accounts
struct carries `has_one = owner` with `owner : Signer`, so the caller must be
the stored owner (modelled as the leading check). Then: requires `is_alive`
and `treasury >= amount`; decrements `treasury`, increments `total_costs`,
and if the resulting treasury is exactly 0, sets `is_alive := false`.
Note the handler does NOT touch `last_active`. -/
def deduct_costs (caller : Nat) (agent : Agent) (amount : Nat) :
    Except BroodError Agent :=
  if caller = agent.owner then
    if agent.is_alive then
      if (amount : Int) ≤ agent.treasury then
        if agent.total_costs + (amount : Int) < (U64_MOD : Int) then
          .ok { agent with
                treasury := agent.treasury - (amount : Int),
                total_costs := agent.total_costs + (amount : Int),
                is_alive :=
                  if agent.treasury - (amount : Int) = 0 then false
                  else agent.is_alive }
        else .error .overflow
      else .error .insufficientTreasury
    else .error .agentDead
  else .error .unauthorized

/-- Rust `i16::clamp(self, 1, 100)`, as used by `mutate_value`. -/
def clampTrait (x : Int) : Int := max 1 (min 100 x)

/-- Embeds `mutate_value`: `((seed % (rate*2+1)) as i16) - (rate as i16)`
added to the trait and clamped to `[1, 100]`. For `u8` inputs all the `i16`
intermediate values are exact, so plain integer arithmetic is faithful. -/
def mutate_value (value rate seed : Nat) : Nat :=
  (clampTrait ((value : Int) + (((seed % (rate * 2 + 1) : Nat) : Int) - (rate : Int)))).toNat

/-- Embeds `mutate_params`: each of the four numeric traits is perturbed via
`mutate_value` with per-trait seeds `seed`, `seed.wrapping_add(1)`, ... ;
`strategy_type` is not mutated. -/
def mutate_params (parent : AgentParams) (mutation_rate : Nat) (seed : Nat) :
    AgentParams :=
  { parent with
    risk_tolerance := mutate_value parent.risk_tolerance mutation_rate (seed % U64_MOD),
    trade_frequency := mutate_value parent.trade_frequency mutation_rate ((seed + 1) % U64_MOD),
    profit_target := mutate_value parent.profit_target mutation_rate ((seed + 2) % U64_MOD),
    stop_loss := mutate_value parent.stop_loss mutation_rate ((seed + 3) % U64_MOD) }

/-- Embeds the `spawn` instruction. Anchor account validation runs before
the handler body, processing the `Spawn` accounts struct in declaration
order: first `parent_agent` with `has_one = owner` (authorization), then the
`init` of `child_agent`, whose PDA seeds include `child_name.as_bytes()` —
Solana's 32-byte per-seed limit (matching the `#[max_len(32)]` layout bound)
rejects a longer name here, before any handler `require!` executes. The
handler body then requires, in source order: `parent.is_alive`,
`parent.treasury >= seed_amount + MIN_OPERATING_RESERVE` (the `u64` sum
panics first if it overflows), and `seed_amount >= MIN_SPAWN_SEED`. On
success the child is initialized with mutated params, generation
`parent.generation + 1` and treasury `seed_amount`, and the parent is
debited by `seed_amount` with `spawn_count` incremented (both `u32`
increments modelled checked). -/
def spawn (caller : Nat) (parent : Agent) (childKey : Nat) (childName : String)
    (seedAmount mutationRate seed : Nat) (now : Int) :
    Except BroodError (Agent × Agent) :=
  if caller = parent.owner then
    if childName.length ≤ 32 then
      if parent.is_alive then
        if seedAmount + MIN_OPERATING_RESERVE < U64_MOD then
          if ((seedAmount + MIN_OPERATING_RESERVE : Nat) : Int) ≤ parent.treasury then
            if MIN_SPAWN_SEED ≤ seedAmount then
              if parent.generation + 1 < U32_MOD then
                if parent.spawn_count + 1 < U32_MOD then
                  .ok ({ parent with
                         treasury := parent.treasury - (seedAmount : Int),
                         spawn_count := parent.spawn_count + 1 },
                       { id := childKey, owner := caller,
                         parent := some parent.id,
                         generation := parent.generation + 1,
                         name := childName,
                         params := mutate_params parent.params mutationRate seed,
                         treasury := (seedAmount : Int), total_earnings := 0,
                         total_costs := 0, spawn_count := 0,
                         service_count := 0, performance_score := 0,
                         created_at := now, last_active := now,
                         is_alive := true })
                else .error .overflow
              else .error .overflow
            else .error .insufficientSpawnSeed
          else .error .insufficientTreasury
        else .error .overflow
      else .error .agentDead
    else .error .validation
  else .error .unauthorized

/-- Embeds the `record_outcome` instruction handler (`has_one = owner`):
requires `is_alive`; adds the signed profit to `performance_score` (checked
`i64` addition) and sets `last_active`. -/
def record_outcome (caller : Nat) (agent : Agent) (profit : Int) (now : Int) :
    Except BroodError Agent :=
  if caller = agent.owner then
    if agent.is_alive then
      if I64_MIN ≤ agent.performance_score + profit ∧
          agent.performance_score + profit ≤ I64_MAX then
        .ok { agent with
              performance_score := agent.performance_score + profit,
              last_active := now }
      else .error .overflow
    else .error .agentDead
  else .error .unauthorized

/-- Modelled from the spec: `update_configuration` is not present in
`src/programs/brood/src/lib.rs` (the spec describes two variant
implementations and only one is in `src/`). Per the spec it requires the
caller to be the agent's owner and the agent to be alive, and replaces the
configuration wholesale, failing with `AuthorizationError` or
`AgentDeadError`. -/
def update_configuration (caller : Nat) (agent : Agent)
    (new_params : AgentParams) : Except BroodError Agent :=
  if caller = agent.owner then
    if agent.is_alive then
      .ok { agent with params := new_params }
    else .error .agentDead
  else .error .unauthorized

/-- Decidable equality of instruction results, so that concrete runs can be
checked by `decide`. -/
instance {ε α : Type} [DecidableEq ε] [DecidableEq α] : DecidableEq (Except ε α) :=
  fun x y => match x, y with
  | .ok a, .ok b => if h : a = b then .isTrue (by rw [h]) else .isFalse (by simp [h])
  | .error a, .error b => if h : a = b then .isTrue (by rw [h]) else .isFalse (by simp [h])
  | .ok _, .error _ => .isFalse (by simp)
  | .error _, .ok _ => .isFalse (by simp)

/-! ## The ledger of agent accounts

A Solana transaction targets accounts by address; the set of live `Agent`
accounts is modelled as a list (creation appends, updates replace in place,
nothing is ever deleted). An instruction whose handler (or account
validation) fails leaves the ledger unchanged. -/

/-- The ledger: every existing `Agent` account. -/
abbrev Ledger := List Agent

/-- One submitted instruction, with all its signer/account/argument data. -/
inductive Op where
  | createAgent (agentKey ownerKey : Nat) (name : String) (ps : AgentParams) (now : Int)
  | fundTreasury (agentKey : Nat) (amount : Nat) (transferOk : Bool)
  | payForService (agentKey : Nat) (amount : Nat) (transferOk : Bool) (now : Int)
  | deductCosts (caller agentKey : Nat) (amount : Nat)
  | spawn (caller parentKey childKey : Nat) (childName : String)
      (seedAmount mutationRate seed : Nat) (now : Int)
  | recordOutcome (caller agentKey : Nat) (profit : Int) (now : Int)

/-- Look up the agent account stored at address `k`. -/
def findAgent (l : Ledger) (k : Nat) : Option Agent :=
  l.find? fun a => a.id == k

/-- Overwrite the agent account stored at address `k`. -/
def setAgent (k : Nat) (a2 : Agent) (l : Ledger) : Ledger :=
  l.map fun a => if a.id = k then a2 else a

/-- Apply one instruction to the ledger. Account `init` fails if the address
already holds an account, and a targeted account must exist; any handler
error rolls the transaction back, leaving the ledger unchanged. -/
def applyOp (l : Ledger) : Op → Ledger
  | .createAgent k o n ps now =>
    match findAgent l k with
    | some _ => l
    | none =>
      match create_agent k o n ps now with
      | .ok a => l ++ [a]
      | .error _ => l
  | .fundTreasury k amt tOk =>
    match findAgent l k with
    | none => l
    | some a =>
      match fund_treasury a amt tOk with
      | .ok a2 => setAgent k a2 l
      | .error _ => l
  | .payForService k amt tOk now =>
    match findAgent l k with
    | none => l
    | some a =>
      match pay_for_service a amt tOk now with
      | .ok a2 => setAgent k a2 l
      | .error _ => l
  | .deductCosts caller k amt =>
    match findAgent l k with
    | none => l
    | some a =>
      match deduct_costs caller a amt with
      | .ok a2 => setAgent k a2 l
      | .error _ => l
  | .spawn caller pk ck cn s rate seed now =>
    match findAgent l pk with
    | none => l
    | some p =>
      match findAgent l ck with
      | some _ => l
      | none =>
        match spawn caller p ck cn s rate seed now with
        | .ok pc => setAgent pk pc.1 l ++ [pc.2]
        | .error _ => l
  | .recordOutcome caller k profit now =>
    match findAgent l k with
    | none => l
    | some a =>
      match record_outcome caller a profit now with
      | .ok a2 => setAgent k a2 l
      | .error _ => l

/-- Apply a sequence of instructions in order. -/
def applyOps (l : Ledger) (ops : List Op) : Ledger :=
  ops.foldl applyOp l

/-- Distinct accounts live at distinct addresses (guaranteed on Solana;
preserved by `applyOp` since creation requires a fresh address). -/
def idsNodup (l : Ledger) : Prop :=
  (l.map Agent.id).Nodup

/-- Every treasury balance in the ledger is non-negative. -/
def treasuriesNonneg (l : Ledger) : Prop :=
  ∀ a ∈ l, 0 ≤ a.treasury

instance (l : Ledger) : Decidable (idsNodup l) :=
  inferInstanceAs (Decidable (l.map Agent.id).Nodup)

instance (l : Ledger) : Decidable (treasuriesNonneg l) :=
  inferInstanceAs (Decidable (∀ a ∈ l, 0 ≤ a.treasury))

/-- How a single agent account may change over time: the address is stable,
the lifetime counters `total_earnings` and `total_costs` never decrease, and
a dead agent never comes back to life. -/
def agentLe (a b : Agent) : Prop :=
  b.id = a.id ∧ a.total_earnings ≤ b.total_earnings ∧
  a.total_costs ≤ b.total_costs ∧
  (a.is_alive = false → b.is_alive = false)

/-- How the ledger may change over time: existing accounts evolve in place
according to `agentLe`, and new accounts may be appended after them. -/
inductive Evolves : Ledger → Ledger → Prop
  | nil (l2 : Ledger) : Evolves [] l2
  | cons {a b : Agent} {l l2 : Ledger} :
      agentLe a b → Evolves l l2 → Evolves (a :: l) (b :: l2)

/-! ## Concrete accounts used in the witness scenarios -/

/-- A generation-1 agent with a 200,000,000 lamport treasury (spec §8 spawn
chain scenario). -/
def agentA1 : Agent :=
  { id := 10, owner := 1, parent := none, generation := 1, name := "A1",
    params := { risk_tolerance := 50, trade_frequency := 50,
                profit_target := 50, stop_loss := 50, strategy_type := 1 },
    treasury := 200000000, total_earnings := 0, total_costs := 0,
    spawn_count := 0, service_count := 0, performance_score := 0,
    created_at := 0, last_active := 0, is_alive := true }

/-- A dead agent. -/
def agentDead : Agent :=
  { agentA1 with id := 20, name := "D", treasury := 0, is_alive := false }

/-- A living agent holding 100 lamports. -/
def agentFunded : Agent :=
  { agentA1 with id := 30, name := "F", treasury := 100 }

/-- A living agent too poor to spawn. -/
def agentPoor : Agent :=
  { agentA1 with id := 40, name := "P", treasury := 5 }

/-- The parent record after the scenario spawn debits 100,000,000. -/
def spawnParentAfter : Agent :=
  { agentA1 with treasury := 100000000, spawn_count := 1 }

/-- The child record produced by the scenario spawn (seed stream 12345). -/
def spawnChild : Agent :=
  { id := 11, owner := 1, parent := some 10, generation := 2, name := "A2",
    params := { risk_tolerance := 58, trade_frequency := 59,
                profit_target := 60, stop_loss := 40, strategy_type := 1 },
    treasury := 100000000, total_earnings := 0, total_costs := 0,
    spawn_count := 0, service_count := 0, performance_score := 0,
    created_at := 1000, last_active := 1000, is_alive := true }

/-- `agentFunded` after deducting 5 lamports of costs. -/
def agentFundedAfter : Agent :=
  { agentFunded with treasury := 95, total_costs := 5 }

/-- `agentDead` after receiving 7 lamports of funding: still dead. -/
def agentDeadFunded : Agent :=
  { agentDead with treasury := 7 }

/-- A replacement parameter vector for the configuration-update witness. -/
def paramsB : AgentParams :=
  { risk_tolerance := 5, trade_frequency := 6, profit_target := 7,
    stop_loss := 8, strategy_type := 0 }

/-- Operation sequence for the invariant-preservation witness. -/
def c1Ops : List Op :=
  [Op.payForService 30 7 true 4, Op.deductCosts 1 30 100]

/-- Operation sequence driving a dead agent through a funding step. -/
def deadOps : List Op :=
  [Op.fundTreasury 20 7 true]

/-- A 33-character name, exceeding the 32-byte bound. -/
def longName : String :=
  "AAAAAAAAAAAAAAAAAAAAAAAAAAAAAAAAA"

/-- `agentStep a b`: one successful operation turned the stored record `a`
into `b`; bundles `agentLe` with preservation of a non-negative treasury. -/
def agentStep (a b : Agent) : Prop :=
  agentLe a b ∧ (0 ≤ a.treasury → 0 ≤ b.treasury)

/-! ## Basic lemmas about the evolution order -/

theorem agentLe_refl (a : Agent) : agentLe a a :=
  ⟨rfl, le_refl _, le_refl _, fun h => h⟩

theorem agentLe_trans {a b c : Agent} (h1 : agentLe a b) (h2 : agentLe b c) :
    agentLe a c :=
  ⟨h2.1.trans h1.1, h1.2.1.trans h2.2.1, h1.2.2.1.trans h2.2.2.1,
   fun h => h2.2.2.2 (h1.2.2.2 h)⟩

theorem evolves_refl (l : Ledger) : Evolves l l := by
  induction l with
  | nil => exact Evolves.nil []
  | cons a rest ih => exact Evolves.cons (agentLe_refl a) ih

theorem evolves_trans {l1 l2 l3 : Ledger} (h1 : Evolves l1 l2)
    (h2 : Evolves l2 l3) : Evolves l1 l3 := by
  induction h1 generalizing l3 with
  | nil => exact Evolves.nil l3
  | cons hab h ih =>
    cases h2 with
    | cons hbc h3 => exact Evolves.cons (agentLe_trans hab hbc) (ih h3)

theorem evolves_append_right {l l2 : Ledger} (m : Ledger)
    (h : Evolves l l2) : Evolves l (l2 ++ m) := by
  induction h with
  | nil l2 => exact Evolves.nil _
  | cons hab h ih => exact Evolves.cons hab ih

theorem evolves_mem {l l2 : Ledger} (h : Evolves l l2) {a : Agent}
    (ha : a ∈ l) : ∃ b, b ∈ l2 ∧ agentLe a b := by
  induction h with
  | nil l2 => cases ha
  | cons hab h ih =>
    rcases List.mem_cons.mp ha with rfl | htail
    · exact ⟨_, List.mem_cons_self _ _, hab⟩
    · obtain ⟨b, hb, hle⟩ := ih htail
      exact ⟨b, List.mem_cons_of_mem _ hb, hle⟩

/-! ## Lemmas about `findAgent`, `setAgent` and `idsNodup` -/

theorem findAgent_some {l : Ledger} {k : Nat} {a : Agent}
    (h : findAgent l k = some a) : a ∈ l ∧ a.id = k := by
  refine ⟨List.mem_of_find?_eq_some h, ?_⟩
  have := List.find?_some h
  simpa using this

theorem findAgent_none {l : Ledger} {k : Nat} (h : findAgent l k = none) :
    ∀ a ∈ l, a.id ≠ k := by
  intro a ha
  have := List.find?_eq_none.mp h a ha
  simpa using this

theorem mem_id_unique {l : Ledger} (h : idsNodup l) {x y : Agent}
    (hx : x ∈ l) (hy : y ∈ l) (hxy : x.id = y.id) : x = y := by
  induction l with
  | nil => cases hx
  | cons z rest ih =>
    have hz : z.id ∉ rest.map Agent.id ∧ (rest.map Agent.id).Nodup := by
      simpa [idsNodup, List.nodup_cons] using h
    rcases List.mem_cons.mp hx with rfl | hx2
    · rcases List.mem_cons.mp hy with rfl | hy2
      · rfl
      · exact absurd (hxy ▸ List.mem_map_of_mem Agent.id hy2) hz.1
    · rcases List.mem_cons.mp hy with rfl | hy2
      · exact absurd (hxy ▸ List.mem_map_of_mem Agent.id hx2) hz.1
      · exact ih hz.2 hx2 hy2

theorem setAgent_ids {k : Nat} {a2 : Agent} (l : Ledger) (h : a2.id = k) :
    (setAgent k a2 l).map Agent.id = l.map Agent.id := by
  induction l with
  | nil => rfl
  | cons x rest ih =>
    simp only [setAgent, List.map_cons] at ih ⊢
    by_cases hx : x.id = k
    · simp [hx, h, ih]
    · simp [hx, ih]

theorem mem_setAgent {k : Nat} {a2 x : Agent} {l : Ledger}
    (h : x ∈ setAgent k a2 l) : x = a2 ∨ x ∈ l := by
  obtain ⟨y, hy, hxy⟩ := List.mem_map.mp h
  by_cases hid : y.id = k
  · left; rw [if_pos hid] at hxy; exact hxy.symm
  · right; rw [if_neg hid] at hxy; exact hxy ▸ hy

theorem evolves_setAgent_of_uniq {k : Nat} {a a2 : Agent} (hle : agentLe a a2) :
    ∀ l : Ledger, (∀ x ∈ l, x.id = k → x = a) → Evolves l (setAgent k a2 l) := by
  intro l
  induction l with
  | nil => intro _; exact Evolves.nil _
  | cons z rest ih =>
    intro huniq
    have hrest := fun x hx => huniq x (List.mem_cons_of_mem _ hx)
    show Evolves (z :: rest) ((if z.id = k then a2 else z) :: setAgent k a2 rest)
    by_cases hz : z.id = k
    · have hza : z = a := huniq z (List.mem_cons_self _ _) hz
      rw [if_pos hz]
      exact Evolves.cons (hza ▸ hle) (ih hrest)
    · rw [if_neg hz]
      exact Evolves.cons (agentLe_refl z) (ih hrest)

theorem evolves_setAgent {l : Ledger} {k : Nat} {a a2 : Agent}
    (hn : idsNodup l) (hf : findAgent l k = some a) (hle : agentLe a a2) :
    Evolves l (setAgent k a2 l) := by
  obtain ⟨hmem, hid⟩ := findAgent_some hf
  exact evolves_setAgent_of_uniq hle l fun x hx hxk =>
    mem_id_unique hn hx hmem (hxk.trans hid.symm)

/-! ## Per-operation step lemmas -/

theorem create_agent_ok {k o : Nat} {n : String} {ps : AgentParams} {now : Int}
    {a : Agent} (h : create_agent k o n ps now = .ok a) :
    a.id = k ∧ a.treasury = 0 := by
  unfold create_agent at h
  split at h
  · cases h; exact ⟨rfl, rfl⟩
  · cases h

theorem fund_treasury_step {a a2 : Agent} {amt : Nat} {tOk : Bool}
    (h : fund_treasury a amt tOk = .ok a2) : agentStep a a2 := by
  unfold fund_treasury at h
  split at h
  · split at h
    · cases h
      refine ⟨⟨rfl, le_refl _, le_refl _, fun hb => hb⟩, fun h0 => ?_⟩
      show 0 ≤ a.treasury + (amt : Int)
      omega
    · cases h
  · cases h

theorem pay_for_service_step {a a2 : Agent} {amt : Nat} {tOk : Bool} {now : Int}
    (h : pay_for_service a amt tOk now = .ok a2) : agentStep a a2 := by
  unfold pay_for_service at h
  repeat' split at h
  all_goals cases h
  refine ⟨⟨rfl, ?_, le_refl _, ?_⟩, fun h0 => ?_⟩
  · show a.total_earnings ≤ a.total_earnings + (amt : Int); omega
  · intro hb; simp_all
  · show 0 ≤ a.treasury + (amt : Int); omega

theorem pay_for_service_ok_alive {a a2 : Agent} {amt : Nat} {tOk : Bool}
    {now : Int} (h : pay_for_service a amt tOk now = .ok a2) :
    a.is_alive = true := by
  unfold pay_for_service at h
  repeat' split at h
  all_goals cases h
  assumption

theorem deduct_costs_step {caller : Nat} {a a2 : Agent} {amt : Nat}
    (h : deduct_costs caller a amt = .ok a2) : agentStep a a2 := by
  unfold deduct_costs at h
  repeat' split at h
  all_goals cases h
  all_goals
    exact ⟨⟨rfl, le_refl _,
      by show a.total_costs ≤ a.total_costs + (amt : Int); omega,
      by intro hb; simp_all⟩,
      by intro h0; show 0 ≤ a.treasury - (amt : Int); omega⟩

theorem deduct_costs_ok_facts {caller : Nat} {a a2 : Agent} {amt : Nat}
    (h : deduct_costs caller a amt = .ok a2) :
    caller = a.owner ∧ a.is_alive = true ∧ (amt : Int) ≤ a.treasury ∧
    a2 = { a with
           treasury := a.treasury - (amt : Int),
           total_costs := a.total_costs + (amt : Int),
           is_alive := if a.treasury - (amt : Int) = 0 then false
                       else a.is_alive } := by
  unfold deduct_costs at h
  repeat' split at h
  all_goals cases h
  all_goals refine ⟨by assumption, by assumption, by assumption, ?_⟩
  · rw [if_pos (by assumption)]
  · rw [if_neg (by assumption)]

theorem record_outcome_step {caller : Nat} {a a2 : Agent} {profit now : Int}
    (h : record_outcome caller a profit now = .ok a2) : agentStep a a2 := by
  unfold record_outcome at h
  repeat' split at h
  all_goals cases h
  exact ⟨⟨rfl, le_refl _, le_refl _, fun hb => by simp_all⟩, fun h0 => h0⟩

theorem update_configuration_step {caller : Nat} {a a2 : Agent}
    {ps : AgentParams} (h : update_configuration caller a ps = .ok a2) :
    agentStep a a2 := by
  unfold update_configuration at h
  repeat' split at h
  all_goals cases h
  exact ⟨⟨rfl, le_refl _, le_refl _, fun hb => by simp_all⟩, fun h0 => h0⟩

theorem spawn_ok_facts {caller : Nat} {p : Agent} {ck : Nat} {cn : String}
    {s rate seed : Nat} {now : Int} {pc : Agent × Agent}
    (h : spawn caller p ck cn s rate seed now = .ok pc) :
    agentStep p pc.1 ∧ pc.2.id = ck ∧ pc.2.treasury = (s : Int) ∧
    p.is_alive = true ∧ caller = p.owner ∧
    ((s + MIN_OPERATING_RESERVE : Nat) : Int) ≤ p.treasury ∧
    pc.1 = { p with
             treasury := p.treasury - (s : Int),
             spawn_count := p.spawn_count + 1 } ∧
    pc.2.params = mutate_params p.params rate seed ∧
    pc.2.generation = p.generation + 1 := by
  unfold spawn at h
  repeat' split at h
  all_goals cases h
  have hres : ((s + MIN_OPERATING_RESERVE : Nat) : Int) ≤ p.treasury := by
    assumption
  have hres10 : MIN_OPERATING_RESERVE = 10000000 := rfl
  refine ⟨⟨⟨rfl, le_refl _, le_refl _, fun hb => by simp_all⟩, fun h0 => ?_⟩,
    rfl, rfl, by assumption, by assumption, hres, rfl, rfl, rfl⟩
  show 0 ≤ p.treasury - (s : Int)
  rw [hres10] at hres
  omega

/-! ## Preservation of the ledger invariants by `applyOp` -/

theorem not_mem_ids_of_find_none {l : Ledger} {k : Nat}
    (h : findAgent l k = none) : k ∉ l.map Agent.id := by
  intro hk
  obtain ⟨a, ha, hak⟩ := List.mem_map.mp hk
  exact findAgent_none h a ha hak

theorem nodup_append_fresh {l : Ledger} {a : Agent} {k : Nat}
    (hn : idsNodup l) (hf : findAgent l k = none) (ha : a.id = k) :
    idsNodup (l ++ [a]) := by
  unfold idsNodup at hn ⊢
  rw [List.map_append]
  refine List.Nodup.append hn (List.nodup_singleton _) ?_
  intro x hx hx1
  simp only [List.map_cons, List.map_nil, List.mem_singleton] at hx1
  subst hx1
  rw [ha] at hx
  exact not_mem_ids_of_find_none hf hx

theorem applyOp_evolves (l : Ledger) (op : Op) (hn : idsNodup l) :
    Evolves l (applyOp l op) := by
  cases op with
  | createAgent k o n ps now =>
    cases hf : findAgent l k with
    | some a => simp only [applyOp, hf]; exact evolves_refl l
    | none =>
      cases hc : create_agent k o n ps now with
      | error e => simp only [applyOp, hf, hc]; exact evolves_refl l
      | ok a =>
        simp only [applyOp, hf, hc]
        exact evolves_append_right [a] (evolves_refl l)
  | fundTreasury k amt tOk =>
    cases hf : findAgent l k with
    | none => simp only [applyOp, hf]; exact evolves_refl l
    | some a =>
      cases hr : fund_treasury a amt tOk with
      | error e => simp only [applyOp, hf, hr]; exact evolves_refl l
      | ok a2 =>
        simp only [applyOp, hf, hr]
        exact evolves_setAgent hn hf (fund_treasury_step hr).1
  | payForService k amt tOk now =>
    cases hf : findAgent l k with
    | none => simp only [applyOp, hf]; exact evolves_refl l
    | some a =>
      cases hr : pay_for_service a amt tOk now with
      | error e => simp only [applyOp, hf, hr]; exact evolves_refl l
      | ok a2 =>
        simp only [applyOp, hf, hr]
        exact evolves_setAgent hn hf (pay_for_service_step hr).1
  | deductCosts caller k amt =>
    cases hf : findAgent l k with
    | none => simp only [applyOp, hf]; exact evolves_refl l
    | some a =>
      cases hr : deduct_costs caller a amt with
      | error e => simp only [applyOp, hf, hr]; exact evolves_refl l
      | ok a2 =>
        simp only [applyOp, hf, hr]
        exact evolves_setAgent hn hf (deduct_costs_step hr).1
  | spawn caller pk ck cn s rate seed now =>
    cases hf : findAgent l pk with
    | none => simp only [applyOp, hf]; exact evolves_refl l
    | some p =>
      cases hc : findAgent l ck with
      | some x => simp only [applyOp, hf, hc]; exact evolves_refl l
      | none =>
        cases hr : spawn caller p ck cn s rate seed now with
        | error e => simp only [applyOp, hf, hc, hr]; exact evolves_refl l
        | ok pc =>
          simp only [applyOp, hf, hc, hr]
          exact evolves_append_right [pc.2]
            (evolves_setAgent hn hf (spawn_ok_facts hr).1.1)
  | recordOutcome caller k profit now =>
    cases hf : findAgent l k with
    | none => simp only [applyOp, hf]; exact evolves_refl l
    | some a =>
      cases hr : record_outcome caller a profit now with
      | error e => simp only [applyOp, hf, hr]; exact evolves_refl l
      | ok a2 =>
        simp only [applyOp, hf, hr]
        exact evolves_setAgent hn hf (record_outcome_step hr).1

theorem applyOp_nodup (l : Ledger) (op : Op) (hn : idsNodup l) :
    idsNodup (applyOp l op) := by
  cases op with
  | createAgent k o n ps now =>
    cases hf : findAgent l k with
    | some a => simpa only [applyOp, hf] using hn
    | none =>
      cases hc : create_agent k o n ps now with
      | error e => simpa only [applyOp, hf, hc] using hn
      | ok a =>
        simp only [applyOp, hf, hc]
        exact nodup_append_fresh hn hf (create_agent_ok hc).1
  | fundTreasury k amt tOk =>
    cases hf : findAgent l k with
    | none => simpa only [applyOp, hf] using hn
    | some a =>
      cases hr : fund_treasury a amt tOk with
      | error e => simpa only [applyOp, hf, hr] using hn
      | ok a2 =>
        simp only [applyOp, hf, hr]
        unfold idsNodup
        rw [setAgent_ids l ((fund_treasury_step hr).1.1.trans
          (findAgent_some hf).2)]
        exact hn
  | payForService k amt tOk now =>
    cases hf : findAgent l k with
    | none => simpa only [applyOp, hf] using hn
    | some a =>
      cases hr : pay_for_service a amt tOk now with
      | error e => simpa only [applyOp, hf, hr] using hn
      | ok a2 =>
        simp only [applyOp, hf, hr]
        unfold idsNodup
        rw [setAgent_ids l ((pay_for_service_step hr).1.1.trans
          (findAgent_some hf).2)]
        exact hn
  | deductCosts caller k amt =>
    cases hf : findAgent l k with
    | none => simpa only [applyOp, hf] using hn
    | some a =>
      cases hr : deduct_costs caller a amt with
      | error e => simpa only [applyOp, hf, hr] using hn
      | ok a2 =>
        simp only [applyOp, hf, hr]
        unfold idsNodup
        rw [setAgent_ids l ((deduct_costs_step hr).1.1.trans
          (findAgent_some hf).2)]
        exact hn
  | spawn caller pk ck cn s rate seed now =>
    cases hf : findAgent l pk with
    | none => simpa only [applyOp, hf] using hn
    | some p =>
      cases hc : findAgent l ck with
      | some x => simpa only [applyOp, hf, hc] using hn
      | none =>
        cases hr : spawn caller p ck cn s rate seed now with
        | error e => simpa only [applyOp, hf, hc, hr] using hn
        | ok pc =>
          simp only [applyOp, hf, hc, hr]
          have hp1 : pc.1.id = pk :=
            (spawn_ok_facts hr).1.1.1.trans (findAgent_some hf).2
          have hnset : idsNodup (setAgent pk pc.1 l) := by
            unfold idsNodup; rw [setAgent_ids l hp1]; exact hn
          have hcset : findAgent (setAgent pk pc.1 l) ck = none := by
            unfold findAgent
            rw [List.find?_eq_none]
            intro x hx
            simp only [beq_iff_eq]
            rcases mem_setAgent hx with rfl | hxl
            · rw [hp1]
              intro hcontra
              exact findAgent_none hc p (findAgent_some hf).1
                ((findAgent_some hf).2.trans hcontra)
            · exact findAgent_none hc x hxl
          exact nodup_append_fresh hnset hcset (spawn_ok_facts hr).2.1
  | recordOutcome caller k profit now =>
    cases hf : findAgent l k with
    | none => simpa only [applyOp, hf] using hn
    | some a =>
      cases hr : record_outcome caller a profit now with
      | error e => simpa only [applyOp, hf, hr] using hn
      | ok a2 =>
        simp only [applyOp, hf, hr]
        unfold idsNodup
        rw [setAgent_ids l ((record_outcome_step hr).1.1.trans
          (findAgent_some hf).2)]
        exact hn

theorem nonneg_setAgent {l : Ledger} {k : Nat} {a2 : Agent}
    (ht : treasuriesNonneg l) (h2 : 0 ≤ a2.treasury) :
    treasuriesNonneg (setAgent k a2 l) := by
  intro x hx
  rcases mem_setAgent hx with rfl | hxl
  · exact h2
  · exact ht x hxl

theorem nonneg_append {l : Ledger} {a : Agent}
    (ht : treasuriesNonneg l) (h2 : 0 ≤ a.treasury) :
    treasuriesNonneg (l ++ [a]) := by
  intro x hx
  rcases List.mem_append.mp hx with hxl | hxa
  · exact ht x hxl
  · rw [List.mem_singleton.mp hxa]; exact h2

theorem applyOp_nonneg (l : Ledger) (op : Op) (ht : treasuriesNonneg l) :
    treasuriesNonneg (applyOp l op) := by
  cases op with
  | createAgent k o n ps now =>
    cases hf : findAgent l k with
    | some a => simpa only [applyOp, hf] using ht
    | none =>
      cases hc : create_agent k o n ps now with
      | error e => simpa only [applyOp, hf, hc] using ht
      | ok a =>
        simp only [applyOp, hf, hc]
        exact nonneg_append ht (le_of_eq (create_agent_ok hc).2.symm)
  | fundTreasury k amt tOk =>
    cases hf : findAgent l k with
    | none => simpa only [applyOp, hf] using ht
    | some a =>
      cases hr : fund_treasury a amt tOk with
      | error e => simpa only [applyOp, hf, hr] using ht
      | ok a2 =>
        simp only [applyOp, hf, hr]
        exact nonneg_setAgent ht
          ((fund_treasury_step hr).2 (ht a (findAgent_some hf).1))
  | payForService k amt tOk now =>
    cases hf : findAgent l k with
    | none => simpa only [applyOp, hf] using ht
    | some a =>
      cases hr : pay_for_service a amt tOk now with
      | error e => simpa only [applyOp, hf, hr] using ht
      | ok a2 =>
        simp only [applyOp, hf, hr]
        exact nonneg_setAgent ht
          ((pay_for_service_step hr).2 (ht a (findAgent_some hf).1))
  | deductCosts caller k amt =>
    cases hf : findAgent l k with
    | none => simpa only [applyOp, hf] using ht
    | some a =>
      cases hr : deduct_costs caller a amt with
      | error e => simpa only [applyOp, hf, hr] using ht
      | ok a2 =>
        simp only [applyOp, hf, hr]
        exact nonneg_setAgent ht
          ((deduct_costs_step hr).2 (ht a (findAgent_some hf).1))
  | spawn caller pk ck cn s rate seed now =>
    cases hf : findAgent l pk with
    | none => simpa only [applyOp, hf] using ht
    | some p =>
      cases hc : findAgent l ck with
      | some x => simpa only [applyOp, hf, hc] using ht
      | none =>
        cases hr : spawn caller p ck cn s rate seed now with
        | error e => simpa only [applyOp, hf, hc, hr] using ht
        | ok pc =>
          simp only [applyOp, hf, hc, hr]
          refine nonneg_append
            (nonneg_setAgent ht
              ((spawn_ok_facts hr).1.2 (ht p (findAgent_some hf).1))) ?_
          rw [(spawn_ok_facts hr).2.2.1]
          exact Int.ofNat_nonneg s
  | recordOutcome caller k profit now =>
    cases hf : findAgent l k with
    | none => simpa only [applyOp, hf] using ht
    | some a =>
      cases hr : record_outcome caller a profit now with
      | error e => simpa only [applyOp, hf, hr] using ht
      | ok a2 =>
        simp only [applyOp, hf, hr]
        exact nonneg_setAgent ht
          ((record_outcome_step hr).2 (ht a (findAgent_some hf).1))

theorem applyOps_cons (l : Ledger) (op : Op) (ops : List Op) :
    applyOps l (op :: ops) = applyOps (applyOp l op) ops := rfl

theorem applyOps_facts (ops : List Op) : ∀ l : Ledger,
    idsNodup l → treasuriesNonneg l →
    idsNodup (applyOps l ops) ∧ treasuriesNonneg (applyOps l ops) ∧
    Evolves l (applyOps l ops) := by
  induction ops with
  | nil => exact fun l hn ht => ⟨hn, ht, evolves_refl l⟩
  | cons op ops ih =>
    intro l hn ht
    rw [applyOps_cons]
    obtain ⟨hn2, ht2, hev⟩ :=
      ih (applyOp l op) (applyOp_nodup l op hn) (applyOp_nonneg l op ht)
    exact ⟨hn2, ht2, evolves_trans (applyOp_evolves l op hn) hev⟩

theorem applyOps_append (l : Ledger) (ops1 ops2 : List Op) :
    applyOps l (ops1 ++ ops2) = applyOps (applyOps l ops1) ops2 :=
  List.foldl_append _ _ _ _

theorem applyOps_evolves (ops : List Op) : ∀ l : Ledger, idsNodup l →
    idsNodup (applyOps l ops) ∧ Evolves l (applyOps l ops) := by
  induction ops with
  | nil => exact fun l hn => ⟨hn, evolves_refl l⟩
  | cons op ops ih =>
    intro l hn
    rw [applyOps_cons]
    obtain ⟨hn2, hev⟩ := ih (applyOp l op) (applyOp_nodup l op hn)
    exact ⟨hn2, evolves_trans (applyOp_evolves l op hn) hev⟩

theorem clampTrait_mono {x y : Int} (h : x ≤ y) : clampTrait x ≤ clampTrait y := by
  unfold clampTrait
  exact max_le_max (le_refl 1) (min_le_min (le_refl 100) h)

theorem mutate_value_bounds (v r s : Nat) :
    clampTrait ((v : Int) - (r : Int)) ≤ (mutate_value v r s : Int) ∧
    (mutate_value v r s : Int) ≤ clampTrait ((v : Int) + (r : Int)) := by
  unfold mutate_value
  set m : Nat := s % (r * 2 + 1) with hm
  have hmod : m < r * 2 + 1 := hm ▸ Nat.mod_lt _ (by omega)
  have hnn : 0 ≤ clampTrait ((v : Int) + ((m : Int) - (r : Int))) :=
    le_trans zero_le_one (le_max_left 1 _)
  rw [Int.toNat_of_nonneg hnn]
  exact ⟨clampTrait_mono (by omega), clampTrait_mono (by omega)⟩

/-! ## The claims -/

/-- C1: for any sequence of ledger operations (`create_agent`,
`fund_treasury`, `pay_for_service`, `deduct_costs`, `spawn`,
`record_outcome`) applied to a well-formed ledger, after every step every
agent treasury is still non-negative, and between any two steps of the
sequence every agent account only evolves by `agentLe`: its address is
stable and its `total_earnings` and `total_costs` counters never
decrease. -/
theorem c1_invariant_preservation (l : Ledger) (ops : List Op)
    (hn : idsNodup l) (ht : treasuriesNonneg l) (n m : Nat) (hnm : n ≤ m) :
    treasuriesNonneg (applyOps l (ops.take n)) ∧
    Evolves (applyOps l (ops.take n)) (applyOps l (ops.take m)) := by
  obtain ⟨hn1, ht1, _⟩ := applyOps_facts (ops.take n) l hn ht
  refine ⟨ht1, ?_⟩
  have hsplit : ops.take m = ops.take n ++ ((ops.drop n).take (m - n)) := by
    rw [← List.take_add]
    congr 1
    omega
  rw [hsplit, applyOps_append]
  exact (applyOps_facts ((ops.drop n).take (m - n)) _ hn1 ht1).2.2

/-- Witness for C1: a concrete one-agent ledger and two operations. -/
theorem c1_invariant_preservation_witness :
    idsNodup [agentFunded] ∧ treasuriesNonneg [agentFunded] ∧ 1 ≤ 2 ∧
    (treasuriesNonneg (applyOps [agentFunded] (c1Ops.take 1)) ∧
     Evolves (applyOps [agentFunded] (c1Ops.take 1))
       (applyOps [agentFunded] (c1Ops.take 2))) :=
  ⟨by decide, by decide, by decide,
   c1_invariant_preservation [agentFunded] c1Ops (by decide) (by decide)
     1 2 (by decide)⟩

/-- C9 (amended): every successful `deduct_costs` decrements `treasury` by
the amount and increments `total_costs` by the amount, but leaves
`last_active` unchanged (the handler never writes it). -/
theorem c9_deduct_costs_effects (caller : Nat) (a a2 : Agent) (amt : Nat)
    (h : deduct_costs caller a amt = .ok a2) :
    a2.treasury = a.treasury - (amt : Int) ∧
    a2.total_costs = a.total_costs + (amt : Int) ∧
    a2.last_active = a.last_active := by
  obtain ⟨-, -, -, rfl⟩ := deduct_costs_ok_facts h
  exact ⟨rfl, rfl, rfl⟩

/-- Witness for C9 (amended), on a concrete successful deduction. -/
theorem c9_deduct_costs_effects_witness :
    agentFundedAfter.treasury = agentFunded.treasury - (5 : Int) ∧
    agentFundedAfter.total_costs = agentFunded.total_costs + (5 : Int) ∧
    agentFundedAfter.last_active = agentFunded.last_active :=
  c9_deduct_costs_effects agentFunded.owner agentFunded agentFundedAfter 5
    (by decide)

/-- C9 counterexample: the claim says a successful `deduct_costs` updates
`last_active` to the current clock value; in the code the handler never
reads the clock and never writes `last_active`, so on a concrete agent whose
`last_active` is 0 the deduction succeeds with `last_active` still 0 — it
would not equal any nonzero current timestamp. -/
theorem c9_no_last_active_update :
    deduct_costs agentFunded.owner agentFunded 5 = .ok agentFundedAfter ∧
    agentFundedAfter.last_active = agentFunded.last_active ∧
    agentFunded.last_active = 0 := by decide

/-- C10: `deduct_costs` is owner-gated by the Anchor `has_one = owner`
constraint: a caller other than the registered owner fails with the
authorization error before any state change, and a successful call implies
the caller is the owner. -/
theorem c10_deduct_costs_owner_gated (caller : Nat) (a : Agent) (amt : Nat) :
    (caller ≠ a.owner →
      deduct_costs caller a amt = .error .unauthorized) ∧
    (∀ l k, caller ≠ a.owner → findAgent l k = some a →
      applyOp l (.deductCosts caller k amt) = l) ∧
    (∀ a2, deduct_costs caller a amt = .ok a2 → caller = a.owner) := by
  refine ⟨fun hne => by simp [deduct_costs, hne], ?_,
    fun a2 h => (deduct_costs_ok_facts h).1⟩
  intro l k hne hf
  have he : deduct_costs caller a amt = .error .unauthorized := by
    simp [deduct_costs, hne]
  simp only [applyOp, hf, he]

/-- Witness for C10: a non-owner call fails and leaves the ledger
unchanged; a successful owner call certifies ownership. -/
theorem c10_deduct_costs_owner_gated_witness :
    deduct_costs 2 agentFunded 5 = .error .unauthorized ∧
    applyOp [agentFunded] (.deductCosts 2 30 5) = [agentFunded] ∧
    1 = agentFunded.owner :=
  ⟨(c10_deduct_costs_owner_gated 2 agentFunded 5).1 (by decide),
   (c10_deduct_costs_owner_gated 2 agentFunded 5).2.1 [agentFunded] 30
     (by decide) (by decide),
   (c10_deduct_costs_owner_gated 1 agentFunded 5).2.2 agentFundedAfter
     (by decide)⟩


/-- C3: for every living parent with treasury `T`, a successful `spawn` with
seed amount `S` leaves the parent treasury at exactly `T - S`, gives the
child treasury exactly `S`, increments the parent `spawn_count` by one, and
conserves total value: parent + child treasury equals `T`. -/
theorem c3_spawn_conservation (caller : Nat) (p : Agent) (ck : Nat)
    (cn : String) (s rate seed : Nat) (now : Int) (pc : Agent × Agent)
    (h : spawn caller p ck cn s rate seed now = .ok pc) :
    p.is_alive = true ∧
    pc.1.treasury = p.treasury - (s : Int) ∧
    pc.2.treasury = (s : Int) ∧
    pc.1.spawn_count = p.spawn_count + 1 ∧
    pc.1.treasury + pc.2.treasury = p.treasury := by
  obtain ⟨-, -, hct, halive, -, -, hp1, -, -⟩ := spawn_ok_facts h
  refine ⟨halive, by rw [hp1], hct, by rw [hp1], ?_⟩
  rw [hp1, hct]
  ring

/-- Witness for C3: the concrete scenario spawn conserves value. -/
theorem c3_spawn_conservation_witness :
    agentA1.is_alive = true ∧
    spawnParentAfter.treasury = agentA1.treasury - ((100000000 : Nat) : Int) ∧
    spawnChild.treasury = ((100000000 : Nat) : Int) ∧
    spawnParentAfter.spawn_count = agentA1.spawn_count + 1 ∧
    spawnParentAfter.treasury + spawnChild.treasury = agentA1.treasury :=
  c3_spawn_conservation 1 agentA1 11 "A2" 100000000 10 12345 1000
    (spawnParentAfter, spawnChild) (by decide)

/-- C5: for a living agent with treasury `t > 0` (and owner-signed call),
`deduct_costs` of exactly `t` succeeds, zeroing the treasury and killing the
agent in the same atomic step, while `deduct_costs` of `t - 1` succeeds and
leaves the agent alive with treasury 1. -/
theorem c5_depletion_triggers_death (a : Agent) (t : Nat)
    (halive : a.is_alive = true) (htre : a.treasury = (t : Int))
    (hpos : 0 < t)
    (hfit : a.total_costs + (t : Int) < (U64_MOD : Int)) :
    deduct_costs a.owner a t = .ok { a with
      treasury := 0,
      total_costs := a.total_costs + (t : Int),
      is_alive := false } ∧
    deduct_costs a.owner a (t - 1) = .ok { a with
      treasury := 1,
      total_costs := a.total_costs + (t : Int) - 1 } ∧
    ({ a with
       treasury := 1,
       total_costs := a.total_costs + (t : Int) - 1 } : Agent).is_alive
      = true := by
  refine ⟨?_, ?_, halive⟩
  · unfold deduct_costs
    rw [if_pos rfl, if_pos halive,
        if_pos (show (t : Int) ≤ a.treasury by omega),
        if_pos hfit, htre]
    simp
  · unfold deduct_costs
    rw [if_pos rfl, if_pos halive,
        if_pos (show ((t - 1 : Nat) : Int) ≤ a.treasury by omega),
        if_pos (show a.total_costs + ((t - 1 : Nat) : Int) < (U64_MOD : Int)
          by omega)]
    have h1 : a.treasury - ((t - 1 : Nat) : Int) = 1 := by omega
    have h2 : a.total_costs + ((t - 1 : Nat) : Int)
        = a.total_costs + (t : Int) - 1 := by omega
    rw [h1, h2, if_neg (by omega)]

/-- Witness for C5: a living agent with a 100-lamport treasury. -/
theorem c5_depletion_triggers_death_witness :
    deduct_costs agentFunded.owner agentFunded 100 = .ok { agentFunded with
      treasury := 0,
      total_costs := agentFunded.total_costs + (100 : Int),
      is_alive := false } ∧
    deduct_costs agentFunded.owner agentFunded (100 - 1) =
      .ok { agentFunded with
        treasury := 1,
        total_costs := agentFunded.total_costs + (100 : Int) - 1 } ∧
    ({ agentFunded with
       treasury := 1,
       total_costs := agentFunded.total_costs + (100 : Int) - 1 }
       : Agent).is_alive = true :=
  c5_depletion_triggers_death agentFunded 100 (by decide) (by decide)
    (by decide) (by decide)

/-- C8: `fund_treasury` has no liveness requirement: for every agent, dead
or alive, a successful external transfer increments the treasury by the
amount and leaves every other field — in particular `is_alive` —
unchanged. -/
theorem c8_fund_ignores_liveness (a : Agent) (amt : Nat)
    (hfit : a.treasury + (amt : Int) < (U64_MOD : Int)) :
    fund_treasury a amt true = .ok { a with
      treasury := a.treasury + (amt : Int) } ∧
    ({ a with treasury := a.treasury + (amt : Int) } : Agent).is_alive
      = a.is_alive := by
  refine ⟨?_, rfl⟩
  unfold fund_treasury
  rw [if_pos rfl, if_pos hfit]

/-- Witness for C8: funding a dead agent succeeds and leaves it dead. -/
theorem c8_fund_ignores_liveness_witness :
    fund_treasury agentDead 7 true = .ok { agentDead with
      treasury := agentDead.treasury + (7 : Int) } ∧
    ({ agentDead with treasury := agentDead.treasury + (7 : Int) }
      : Agent).is_alive = agentDead.is_alive :=
  c8_fund_ignores_liveness agentDead 7 (by decide)


/-- C2: death is terminal. For every agent with `is_alive = false`:
`pay_for_service` (record-earnings), `deduct_costs` (owner-signed),
`update_configuration` (owner-signed, spec-modelled) and `spawn` with that
agent as parent (owner-signed, child name within its 32-byte account-
validation bound) all fail with the `AgentDead` error; any such instruction
— for any caller and any name — leaves the whole ledger unchanged; and
along any operation sequence on a well-formed ledger the agent's record
never has `is_alive = true` again. -/
theorem c2_death_is_terminal (a : Agent) (hdead : a.is_alive = false) :
    (∀ amt tOk now, pay_for_service a amt tOk now = .error .agentDead) ∧
    (∀ amt, deduct_costs a.owner a amt = .error .agentDead) ∧
    (∀ ps, update_configuration a.owner a ps = .error .agentDead) ∧
    (∀ ck cn s rate seed now, cn.length ≤ 32 →
      spawn a.owner a ck cn s rate seed now = .error .agentDead) ∧
    (∀ l k amt tOk now, findAgent l k = some a →
      applyOp l (.payForService k amt tOk now) = l) ∧
    (∀ l caller k amt, findAgent l k = some a →
      applyOp l (.deductCosts caller k amt) = l) ∧
    (∀ l caller k ck cn s rate seed now, findAgent l k = some a →
      applyOp l (.spawn caller k ck cn s rate seed now) = l) ∧
    (∀ l ops, idsNodup l → a ∈ l →
      ∀ b, b ∈ applyOps l ops → b.id = a.id → b.is_alive = false) := by
  have hpay : ∀ amt tOk now,
      pay_for_service a amt tOk now = .error .agentDead := by
    intro amt tOk now
    simp [pay_for_service, hdead]
  have hded : ∀ caller amt, ∃ e,
      deduct_costs caller a amt = Except.error e := by
    intro caller amt
    by_cases hc : caller = a.owner
    · exact ⟨.agentDead, by simp [deduct_costs, hc, hdead]⟩
    · exact ⟨.unauthorized, by simp [deduct_costs, hc]⟩
  have hspawn : ∀ caller ck cn s rate seed now, ∃ e,
      spawn caller a ck cn s rate seed now = Except.error e := by
    intro caller ck cn s rate seed now
    by_cases hc : caller = a.owner
    · by_cases hl : cn.length ≤ 32
      · exact ⟨.agentDead, by simp [spawn, hc, hl, hdead]⟩
      · exact ⟨.validation, by simp [spawn, hc, hl]⟩
    · exact ⟨.unauthorized, by simp [spawn, hc]⟩
  refine ⟨hpay,
    fun amt => by simp [deduct_costs, hdead],
    fun ps => by simp [update_configuration, hdead],
    fun ck cn s rate seed now hl => by simp [spawn, hl, hdead],
    ?_, ?_, ?_, ?_⟩
  · intro l k amt tOk now hf
    simp only [applyOp, hf, hpay amt tOk now]
  · intro l caller k amt hf
    obtain ⟨e, he⟩ := hded caller amt
    simp only [applyOp, hf, he]
  · intro l caller k ck cn s rate seed now hf
    cases hc : findAgent l ck with
    | some x => simp only [applyOp, hf, hc]
    | none =>
      obtain ⟨e, he⟩ := hspawn caller ck cn s rate seed now
      simp only [applyOp, hf, hc, he]
  · intro l ops hn ha b hb hbid
    obtain ⟨hn2, hev⟩ := applyOps_evolves ops l hn
    obtain ⟨b0, hb0, hle⟩ := evolves_mem hev ha
    have hbb0 : b = b0 :=
      mem_id_unique hn2 hb hb0 (hbid.trans hle.1.symm)
    rw [hbb0]
    exact hle.2.2.2 hdead

/-- Witness for C2: the concrete dead agent `agentDead`, each operation kind
instantiated, and a funding step that leaves it dead. -/
theorem c2_death_is_terminal_witness :
    pay_for_service agentDead 5 true 3 = .error .agentDead ∧
    deduct_costs agentDead.owner agentDead 5 = .error .agentDead ∧
    update_configuration agentDead.owner agentDead paramsB
      = .error .agentDead ∧
    spawn agentDead.owner agentDead 99 "K" 100000000 10 7 3
      = .error .agentDead ∧
    applyOp [agentDead] (.payForService 20 5 true 3) = [agentDead] ∧
    applyOp [agentDead] (.deductCosts 1 20 5) = [agentDead] ∧
    applyOp [agentDead] (.spawn 1 20 99 "K" 100000000 10 7 3)
      = [agentDead] ∧
    agentDeadFunded.is_alive = false :=
  ⟨(c2_death_is_terminal agentDead (by decide)).1 5 true 3,
   (c2_death_is_terminal agentDead (by decide)).2.1 5,
   (c2_death_is_terminal agentDead (by decide)).2.2.1 paramsB,
   (c2_death_is_terminal agentDead (by decide)).2.2.2.1 99 "K" 100000000 10 7
     3 (by decide),
   (c2_death_is_terminal agentDead (by decide)).2.2.2.2.1 [agentDead] 20 5
     true 3 (by decide),
   (c2_death_is_terminal agentDead (by decide)).2.2.2.2.2.1 [agentDead] 1 20 5
     (by decide),
   (c2_death_is_terminal agentDead (by decide)).2.2.2.2.2.2.1 [agentDead] 1 20
     99 "K" 100000000 10 7 3 (by decide),
   (c2_death_is_terminal agentDead (by decide)).2.2.2.2.2.2.2 [agentDead]
     deadOps (by decide) (by decide) agentDeadFunded (by decide) (by decide)⟩

/-- C4 counterexample: the claim places the child-name length check last
(after liveness, treasury and seed), but the program enforces the bound
during Anchor account validation — the child account's PDA seeds include
`child_name.as_bytes()` and Solana rejects a seed over 32 bytes — before any
handler `require!` runs. So a spawn on a dead (or under-funded) parent with
a 33-character child name fails with the validation error, where the
claimed order demands `AgentDead` (resp. `InsufficientTreasury`). -/
theorem c4_name_checked_before_handler_counterexample :
    spawn 1 agentDead 11 longName 100000000 10 7 5 = .error .validation ∧
    spawn 1 agentPoor 11 longName 100000000 10 7 5 = .error .validation ∧
    BroodError.validation ≠ BroodError.agentDead ∧
    BroodError.validation ≠ BroodError.insufficientTreasury := by decide

/-- C4 (amended): `spawn` preconditions are checked with the first failure
winning, in the order: caller authorization (`has_one = owner`), the
child-name length bound (child-account validation: PDA seed limit /
`#[max_len(32)]`, which runs before the handler body), parent liveness,
parent treasury at least `seed + MIN_OPERATING_RESERVE` (the `u64` sum must
not overflow), and seed at least `MIN_SPAWN_SEED`; and any failing `spawn`
mutates neither the parent nor creates a child. -/
theorem c4_spawn_precondition_order (caller : Nat) (p : Agent) (ck : Nat)
    (cn : String) (s rate seed : Nat) (now : Int) :
    (caller ≠ p.owner →
      spawn caller p ck cn s rate seed now = .error .unauthorized) ∧
    (caller = p.owner → 32 < cn.length →
      spawn caller p ck cn s rate seed now = .error .validation) ∧
    (caller = p.owner → cn.length ≤ 32 → p.is_alive = false →
      spawn caller p ck cn s rate seed now = .error .agentDead) ∧
    (caller = p.owner → cn.length ≤ 32 → p.is_alive = true →
      s + MIN_OPERATING_RESERVE < U64_MOD →
      p.treasury < ((s + MIN_OPERATING_RESERVE : Nat) : Int) →
      spawn caller p ck cn s rate seed now = .error .insufficientTreasury) ∧
    (caller = p.owner → cn.length ≤ 32 → p.is_alive = true →
      s + MIN_OPERATING_RESERVE < U64_MOD →
      ((s + MIN_OPERATING_RESERVE : Nat) : Int) ≤ p.treasury →
      s < MIN_SPAWN_SEED →
      spawn caller p ck cn s rate seed now = .error .insufficientSpawnSeed) ∧
    (∀ e l pk, spawn caller p ck cn s rate seed now = .error e →
      findAgent l pk = some p →
      applyOp l (.spawn caller pk ck cn s rate seed now) = l) := by
  refine ⟨fun h1 => by simp [spawn, h1],
    fun h1 h2 => by simp [spawn, h1, not_le.mpr h2],
    fun h1 hl h2 => by simp [spawn, h1, hl, h2],
    fun h1 hl h2 h3 h4 => by
      have h4b : ¬((s : Int) + (MIN_OPERATING_RESERVE : Int) ≤ p.treasury) := by
        push_cast at h4; omega
      simp [spawn, h1, hl, h2, h3, h4b],
    fun h1 hl h2 h3 h4 h5 => by
      have h4b : (s : Int) + (MIN_OPERATING_RESERVE : Int) ≤ p.treasury := by
        push_cast at h4; omega
      simp [spawn, h1, hl, h2, h3, h4b, not_le.mpr h5],
    ?_⟩
  intro e l pk he hf
  cases hc : findAgent l ck with
  | some x => simp only [applyOp, hf, hc]
  | none => simp only [applyOp, hf, hc, he]

/-- Witness for C4 (amended): each precondition failure on a concrete agent,
and the unchanged-ledger conclusion for a failing spawn. -/
theorem c4_spawn_precondition_order_witness :
    spawn 2 agentA1 11 "A2" 100000000 10 7 5 = .error .unauthorized ∧
    spawn 1 agentA1 11 longName 100000000 10 7 5 = .error .validation ∧
    spawn 1 agentDead 11 "A2" 100000000 10 7 5 = .error .agentDead ∧
    spawn 1 agentPoor 11 "A2" 100000000 10 7 5
      = .error .insufficientTreasury ∧
    spawn 1 agentA1 11 "A2" 50 10 7 5 = .error .insufficientSpawnSeed ∧
    applyOp [agentA1] (.spawn 2 10 11 "A2" 100000000 10 7 5) = [agentA1] :=
  ⟨(c4_spawn_precondition_order 2 agentA1 11 "A2" 100000000 10 7 5).1
     (by decide),
   (c4_spawn_precondition_order 1 agentA1 11 longName 100000000 10 7 5).2.1
     (by decide) (by decide),
   (c4_spawn_precondition_order 1 agentDead 11 "A2" 100000000 10 7 5).2.2.1
     (by decide) (by decide) (by decide),
   (c4_spawn_precondition_order 1 agentPoor 11 "A2" 100000000 10 7
     5).2.2.2.1 (by decide) (by decide) (by decide) (by decide) (by decide),
   (c4_spawn_precondition_order 1 agentA1 11 "A2" 50 10 7 5).2.2.2.2.1
     (by decide) (by decide) (by decide) (by decide) (by decide) (by decide),
   (c4_spawn_precondition_order 2 agentA1 11 "A2" 100000000 10 7
     5).2.2.2.2.2 .unauthorized [agentA1] 10
     ((c4_spawn_precondition_order 2 agentA1 11 "A2" 100000000 10 7 5).1
       (by decide))
     (by decide)⟩

/-- C6 counterexample: the claim states `MIN_OPERATING_RESERVE =
50,000,000`, but the constant in the source is `10_000_000`. -/
theorem c6_reserve_constant_counterexample :
    MIN_OPERATING_RESERVE = 10000000 ∧ MIN_OPERATING_RESERVE ≠ 50000000 := by
  decide

/-- C6 (amended): the fixed constants are `MIN_SPAWN_SEED = 100,000,000` and
`MIN_OPERATING_RESERVE = 10,000,000`; for a generation-1 agent with treasury
200,000,000, a spawn with seed 100,000,000 succeeds leaving the parent at
100,000,000 and producing a generation-2 child with treasury 100,000,000,
and a second spawn with seed 100,000,000 on the same parent fails with
`InsufficientTreasury` (100,000,000 < 100,000,000 + 10,000,000). -/
theorem c6_spawn_chain_scenario :
    MIN_SPAWN_SEED = 100000000 ∧ MIN_OPERATING_RESERVE = 10000000 ∧
    agentA1.generation = 1 ∧ agentA1.treasury = 200000000 ∧
    spawn 1 agentA1 11 "A2" 100000000 10 12345 1000
      = .ok (spawnParentAfter, spawnChild) ∧
    spawnParentAfter.treasury = 100000000 ∧
    spawnChild.generation = 2 ∧ spawnChild.treasury = 100000000 ∧
    spawn 1 spawnParentAfter 12 "A3" 100000000 10 999 2000
      = .error .insufficientTreasury := by
  decide

/-- C7: every successful spawn mutates each of the four numeric traits of
the child configuration to a value within
`[clamp(parent_trait - rate, 1, 100), clamp(parent_trait + rate, 1, 100)]`,
where `rate` is the mutation intensity. -/
theorem c7_mutation_range (caller : Nat) (p : Agent) (ck : Nat) (cn : String)
    (s rate seed : Nat) (now : Int) (pc : Agent × Agent)
    (h : spawn caller p ck cn s rate seed now = .ok pc) :
    (clampTrait ((p.params.risk_tolerance : Int) - (rate : Int))
        ≤ (pc.2.params.risk_tolerance : Int) ∧
      (pc.2.params.risk_tolerance : Int)
        ≤ clampTrait ((p.params.risk_tolerance : Int) + (rate : Int))) ∧
    (clampTrait ((p.params.trade_frequency : Int) - (rate : Int))
        ≤ (pc.2.params.trade_frequency : Int) ∧
      (pc.2.params.trade_frequency : Int)
        ≤ clampTrait ((p.params.trade_frequency : Int) + (rate : Int))) ∧
    (clampTrait ((p.params.profit_target : Int) - (rate : Int))
        ≤ (pc.2.params.profit_target : Int) ∧
      (pc.2.params.profit_target : Int)
        ≤ clampTrait ((p.params.profit_target : Int) + (rate : Int))) ∧
    (clampTrait ((p.params.stop_loss : Int) - (rate : Int))
        ≤ (pc.2.params.stop_loss : Int) ∧
      (pc.2.params.stop_loss : Int)
        ≤ clampTrait ((p.params.stop_loss : Int) + (rate : Int))) := by
  have hps := (spawn_ok_facts h).2.2.2.2.2.2.2.1
  rw [hps]
  unfold mutate_params
  exact ⟨mutate_value_bounds _ rate _, mutate_value_bounds _ rate _,
    mutate_value_bounds _ rate _, mutate_value_bounds _ rate _⟩

/-- Witness for C7: the concrete scenario spawn with intensity 10. -/
theorem c7_mutation_range_witness :
    (clampTrait ((agentA1.params.risk_tolerance : Int) - (10 : Nat))
        ≤ (spawnChild.params.risk_tolerance : Int) ∧
      (spawnChild.params.risk_tolerance : Int)
        ≤ clampTrait ((agentA1.params.risk_tolerance : Int) + (10 : Nat))) ∧
    (clampTrait ((agentA1.params.trade_frequency : Int) - (10 : Nat))
        ≤ (spawnChild.params.trade_frequency : Int) ∧
      (spawnChild.params.trade_frequency : Int)
        ≤ clampTrait ((agentA1.params.trade_frequency : Int) + (10 : Nat))) ∧
    (clampTrait ((agentA1.params.profit_target : Int) - (10 : Nat))
        ≤ (spawnChild.params.profit_target : Int) ∧
      (spawnChild.params.profit_target : Int)
        ≤ clampTrait ((agentA1.params.profit_target : Int) + (10 : Nat))) ∧
    (clampTrait ((agentA1.params.stop_loss : Int) - (10 : Nat))
        ≤ (spawnChild.params.stop_loss : Int) ∧
      (spawnChild.params.stop_loss : Int)
        ≤ clampTrait ((agentA1.params.stop_loss : Int) + (10 : Nat))) :=
  c7_mutation_range 1 agentA1 11 "A2" 100000000 10 12345 1000
    (spawnParentAfter, spawnChild) (by decide)


end Brood
